import Mathlib

/-!
Shallow embedding of the partition-lease and checkpoint coordination layer
in `storage/storage.go` (the Azure Storage `LeaserCheckpointer`).

The in-process state of a `LeaserCheckpointer` — the Lease Cache
(`sl.leases`), the Checkpoint Tracker's dirty set (`sl.dirtyPartitions`)
and, for reasoning about durable effects, the contents of the blob store —
is modelled as `LCState`.  Association lists with string keys stand for the
Go maps.  Blob-service calls whose outcome the code merely branches on
(get, lock acquire/renew/break/release, upload) are passed in as explicit
`Except`-valued oracles; the durable store component of the state is
updated when the corresponding upload succeeds.  Go errors are modelled as
their message strings; a nil error is `Option.none`.
-/

namespace AzureStorageLC

/-- Checkpoint mirrors `persist.Checkpoint` from the external
azure-amqp-common-go dependency: a progress marker with an offset, a
sequence number and an enqueue-time marker. -/
structure Checkpoint where
  Offset : String
  SequenceNumber : Int
  EnqueueTime : Int
deriving DecidableEq, Repr

/-- Modelled from the spec: `persist.NewCheckpointFromStartOfStream` (the
external persist package, not part of src/) produces the pre-defined
"start of stream" checkpoint, the default when no checkpoint exists. -/
def NewCheckpointFromStartOfStream : Checkpoint :=
  { Offset := "-1", SequenceNumber := 0, EnqueueTime := 0 }

/-- Lease states reported by the blob service
(`azblob.LeaseStateType`). -/
inductive LeaseStateType where
  | available
  | leased
  | expired
  | breaking
  | broken
deriving DecidableEq, Repr

/-- StorageLease mirrors `storageLease` (with the embedded `eph.Lease`
fields inlined).  `Checkpoint` is a Go pointer, hence `Option`:
`none` models a nil checkpoint pointer. -/
structure StorageLease where
  PartitionID : String
  Owner : String
  Epoch : Int
  Checkpoint : Option Checkpoint
  State : LeaseStateType
  Token : String
deriving DecidableEq, Repr

/-- Association-list lookup, modelling `m[k]` on a Go map. -/
def lookupA {α : Type} : List (String × α) → String → Option α
  | [], _ => none
  | (k, v) :: rest, key => if k = key then some v else lookupA rest key

/-- Association-list removal of every binding of a key, modelling
`delete(m, k)`. -/
def eraseA {α : Type} (l : List (String × α)) (key : String) : List (String × α) :=
  l.filter (fun kv => kv.1 ≠ key)

/-- Association-list update, modelling `m[k] = v`. -/
def insertA {α : Type} (l : List (String × α)) (key : String) (v : α) : List (String × α) :=
  (key, v) :: eraseA l key

/-- LCState is the mutable state of a `LeaserCheckpointer`: the durable
blob store contents (one serialized lease per partition key), the Lease
Cache `leases`, the dirty set `dirtyPartitions` (partition id to the
opaque dirty marker), and the processor identity returned by
`sl.processor.GetName()`. -/
structure LCState where
  store : List (String × StorageLease)
  leases : List (String × StorageLease)
  dirtyPartitions : List (String × String)
  processorName : String
deriving DecidableEq, Repr

/-- Fresh lease value built at the top of `createOrGetLease`:
`&storageLease{Lease: &eph.Lease{PartitionID: partitionID}}` — every other
field is the zero value, and in particular the checkpoint pointer is nil. -/
def newEnsuredLease (partitionID : String) : StorageLease :=
  { PartitionID := partitionID
    Owner := ""
    Epoch := 0
    Checkpoint := none
    State := LeaseStateType.available
    Token := "" }

/-- Blob-service semantics of the conditional create issued by
`createOrGetLease`: `PutBlob` with access condition `IfNoneMatch: "*"`.
When the object already exists the service rejects the write with HTTP 412
and the azblob pipeline surfaces that as a non-nil error (a successful
`PutBlob` returns 201 Created); when it does not exist the blob is written
and 201 is returned. -/
def putBlobIfNoneMatch (store : List (String × StorageLease)) (partitionID : String)
    (lease : StorageLease) : Except String (Nat × List (String × StorageLease)) :=
  if (lookupA store partitionID).isSome then
    Except.error "BlobAlreadyExists"
  else
    Except.ok (201, insertA store partitionID lease)

/-- Embedding of `createOrGetLease`: marshal a fresh lease, attempt the
conditional create, return any error as-is; otherwise fall back to a get
only when the response status is 404, else return the fresh lease. -/
def createOrGetLease (s : LCState) (partitionID : String) :
    Except String StorageLease × LCState :=
  let lease := newEnsuredLease partitionID
  match putBlobIfNoneMatch s.store partitionID lease with
  | Except.error e => (Except.error e, s)
  | Except.ok (statusCode, store1) =>
    if statusCode = 404 then
      match lookupA store1 partitionID with
      | some existing => (Except.ok existing, { s with store := store1 })
      | none => (Except.error "BlobNotFound", { s with store := store1 })
    else
      (Except.ok lease, { s with store := store1 })

/-- Embedding of `EnsureLease`: takes the cache lock and delegates to
`createOrGetLease`. -/
def EnsureLease (s : LCState) (partitionID : String) :
    Except String StorageLease × LCState :=
  createOrGetLease s partitionID

/-- AcquireEnv collects the outcomes of the blob-service calls made by
`AcquireLease`, in program order: the initial `getLease` read, the
`GetPropertiesAndMetadata` read of the current lock state, `uuid.NewV4`
generating the new token, `ChangeLease oldToken newToken` (the steal
path), `AcquireLease newToken` on the blob (the fresh-lock path), and the
`PutBlob` upload conditioned on a lease token. -/
structure AcquireEnv where
  getLease : Except String StorageLease
  getProperties : Except String LeaseStateType
  newUUID : Except String String
  changeLease : String → String → Except String Unit
  acquireBlobLease : String → Except String Unit
  putBlob : String → Except String Unit

/-- Embedding of `AcquireLease`.  The Go function returns
`(eph.LeaseMarker, bool, error)`; here the triple is
`(Option StorageLease × Bool × Option String)` paired with the state
after the call.  A failed initial `getLease` read returns
`(nil, false, nil)` — the error is logged and swallowed.  Every later
failure is surfaced.  On success the lease's token, owner and epoch are
updated (`IncrementEpoch`, modelled from the spec as adding one to the
monotonically increasing counter, lives in the eph package outside src/),
the lease is uploaded conditioned on the new token, and stored in the
Lease Cache. -/
def AcquireLease (env : AcquireEnv) (s : LCState) (partitionID : String) :
    (Option StorageLease × Bool × Option String) × LCState :=
  match env.getLease with
  | Except.error _ => ((none, false, none), s)
  | Except.ok lease =>
    match env.getProperties with
    | Except.error e => ((none, false, some e), s)
    | Except.ok leaseState =>
      match env.newUUID with
      | Except.error e => ((none, false, some e), s)
      | Except.ok newToken =>
        let lockResult :=
          if leaseState = LeaseStateType.leased then
            env.changeLease lease.Token newToken
          else
            env.acquireBlobLease newToken
        match lockResult with
        | Except.error e => ((none, false, some e), s)
        | Except.ok _ =>
          let acquired := { lease with
            Token := newToken
            Owner := s.processorName
            Epoch := lease.Epoch + 1 }
          match env.putBlob acquired.Token with
          | Except.error e => ((none, false, some e), s)
          | Except.ok _ =>
            ((some acquired, true, none),
             { s with
                leases := insertA s.leases partitionID acquired
                store := insertA s.store partitionID acquired })

/-- Embedding of `RenewLease`.  `renewLock` is the outcome of
`blobURL.RenewLease` with the cached token. -/
def RenewLease (renewLock : Except String Unit) (s : LCState) (partitionID : String) :
    (Option StorageLease × Bool × Option String) × LCState :=
  match lookupA s.leases partitionID with
  | none => ((none, false, some "lease was not found"), s)
  | some lease =>
    match renewLock with
    | Except.error e => ((none, false, some e), s)
    | Except.ok _ => ((some lease, true, none), s)

/-- Embedding of `ReleaseLease`.  `releaseLock` is the outcome of
`blobURL.ReleaseLease` with the cached token.  On success the partition
is evicted from both the Lease Cache and the dirty set. -/
def ReleaseLease (releaseLock : Except String Unit) (s : LCState) (partitionID : String) :
    (Bool × Option String) × LCState :=
  match lookupA s.leases partitionID with
  | none => ((false, some "lease was not found"), s)
  | some _ =>
    match releaseLock with
    | Except.error e => ((false, some e), s)
    | Except.ok _ =>
      ((true, none),
       { s with
          leases := eraseA s.leases partitionID
          dirtyPartitions := eraseA s.dirtyPartitions partitionID })

/-- UpdateEnv collects the outcomes of the blob-service calls made by the
internal `updateLease`: `RenewLease` on the blob with the cached token,
and the `uploadLease` `PutBlob` conditioned on that token. -/
structure UpdateEnv where
  renewLock : String → Except String Unit
  putBlob : String → Except String Unit

/-- Embedding of the internal `updateLease`.  The map lookup binds
`lease, ok := sl.leases[partitionID]`; `ok` is tested once (early return)
and then re-tested after the lock renewal without having been
reassigned. -/
def updateLease (env : UpdateEnv) (s : LCState) (partitionID : String) :
    (Option StorageLease × Bool × Option String) × LCState :=
  let found := lookupA s.leases partitionID
  let ok := found.isSome
  match found with
  | none => ((none, false, some "lease was not found"), s)
  | some lease =>
    match env.renewLock lease.Token with
    | Except.error e => ((none, false, some e), s)
    | Except.ok _ =>
      if !ok then
        ((none, false, some "could not renew lease when updating lease"), s)
      else
        match env.putBlob lease.Token with
        | Except.error e => ((none, false, some e), s)
        | Except.ok _ =>
          ((some lease, true, none),
           { s with store := insertA s.store partitionID lease })

/-- Variant of `updateLease` with the second `if !ok` test removed, used
only to state that the removed branch is unreachable: the two functions
agree on every input. -/
def updateLeaseSecondCheckRemoved (env : UpdateEnv) (s : LCState) (partitionID : String) :
    (Option StorageLease × Bool × Option String) × LCState :=
  match lookupA s.leases partitionID with
  | none => ((none, false, some "lease was not found"), s)
  | some lease =>
    match env.renewLock lease.Token with
    | Except.error e => ((none, false, some e), s)
    | Except.ok _ =>
      match env.putBlob lease.Token with
      | Except.error e => ((none, false, some e), s)
      | Except.ok _ =>
        ((some lease, true, none),
         { s with store := insertA s.store partitionID lease })

/-- Embedding of `GetCheckpoint`.  When the partition is in the Lease
Cache the code returns `*lease.Checkpoint` unconditionally; a nil
checkpoint pointer there is a panic, modelled as `none`.  Otherwise the
start-of-stream default is returned with `ok = false`. -/
def GetCheckpoint (s : LCState) (partitionID : String) : Option (Checkpoint × Bool) :=
  match lookupA s.leases partitionID with
  | some lease =>
    match lease.Checkpoint with
    | some cp => some (cp, true)
    | none => none
  | none => some (NewCheckpointFromStartOfStream, false)

/-- Embedding of `EnsureCheckpoint`: materializes the default checkpoint
into the cached lease when the owned lease has none. -/
def EnsureCheckpoint (s : LCState) (partitionID : String) : Checkpoint × LCState :=
  match lookupA s.leases partitionID with
  | some lease =>
    match lease.Checkpoint with
    | some cp => (cp, s)
    | none =>
      let materialized := { lease with Checkpoint := some NewCheckpointFromStartOfStream }
      (NewCheckpointFromStartOfStream,
       { s with leases := insertA s.leases partitionID materialized })
  | none => (NewCheckpointFromStartOfStream, s)

/-- Embedding of `UpdateCheckpoint`.  `newUUID` is the outcome of
`uuid.NewV4` generating the fresh dirty marker.  The cached lease's
checkpoint pointer is replaced in memory before the marker is generated
(so the checkpoint mutation survives even a marker-generation failure);
on success the partition is marked dirty.  No durable-store call is
made. -/
def UpdateCheckpoint (newUUID : Except String String) (s : LCState) (partitionID : String)
    (checkpoint : Checkpoint) : Option String × LCState :=
  match lookupA s.leases partitionID with
  | none => (some "lease for partition isn't owned by this EventProcessorHost", s)
  | some lease =>
    let s1 := { s with
      leases := insertA s.leases partitionID { lease with Checkpoint := some checkpoint } }
    match newUUID with
    | Except.error e => (some e, s1)
    | Except.ok marker =>
      (none, { s1 with dirtyPartitions := insertA s1.dirtyPartitions partitionID marker })

/-- Receive loop of `GetLeases`: consumes the fan-in results in arrival
order, aborting on the first fetch error (`return nil, result.Err`) and
otherwise accumulating the leases. -/
def gatherLeases : List (Except String StorageLease) → List StorageLease →
    Except String (List StorageLease)
  | [], acc => Except.ok acc.reverse
  | r :: rest, acc =>
    match r with
    | Except.error e => Except.error e
    | Except.ok lease => gatherLeases rest (lease :: acc)

/-- Embedding of `GetLeases`, parameterized by the per-partition fetch
results in the order they arrive on the channel. -/
def GetLeases (results : List (Except String StorageLease)) :
    Except String (List StorageLease) :=
  gatherLeases results []

/-- Receive loop of `persistDirtyPartitions`.  `i` is the loop counter;
the loop condition `i < len(sl.dirtyPartitions)` re-reads the shrinking
dirty set on every iteration.  Each consumed result — a pair of the
partition id and the `persistLease` error for it — updates `lastErr` when
the flush failed and then unconditionally deletes the partition from the
dirty set.  Returns the (reported error, final dirty set) pair together
with the unconsumed results. -/
def persistLoop : Nat → List (String × Option String) → Option String →
    List (String × String) →
    (Option String × List (String × String)) × List (String × Option String)
  | i, results, lastErr, dirty =>
    if i < dirty.length then
      match results with
      | [] => ((lastErr, dirty), [])
      | r :: rest =>
        persistLoop (i + 1) rest
          (match r.2 with
           | some e => some e
           | none => lastErr)
          (eraseA dirty r.1)
    else
      ((lastErr, dirty), results)

/-- Embedding of one cycle of `persistDirtyPartitions`, parameterized by
the arrival-ordered flush results of the goroutines it fans out (one per
dirty partition).  Returns the cycle's reported error and the state
afterwards. -/
def persistDirtyPartitions (results : List (String × Option String)) (s : LCState) :
    Option String × LCState :=
  let out := persistLoop 0 results none s.dirtyPartitions
  (out.1.1, { s with dirtyPartitions := out.1.2 })

/-! ### Association-list lemmas -/

theorem lookupA_eraseA_self {α : Type} (l : List (String × α)) (key : String) :
    lookupA (eraseA l key) key = none := by
  induction l with
  | nil => rfl
  | cons kv rest ih =>
    by_cases h : kv.1 = key
    · simp [eraseA, List.filter, h] at ih ⊢
      exact ih
    · simp [eraseA, List.filter, h] at ih ⊢
      simp [lookupA, h]
      exact ih

theorem lookupA_eraseA_of_none {α : Type} (l : List (String × α)) (p q : String)
    (h : lookupA l p = none) : lookupA (eraseA l q) p = none := by
  induction l with
  | nil => rfl
  | cons kv rest ih =>
    rw [lookupA] at h
    by_cases hp : kv.1 = p
    · simp [hp] at h
    · simp [hp] at h
      by_cases hq : kv.1 = q
      · simp [eraseA, List.filter, hq]
        have := ih h
        simpa [eraseA] using this
      · simp [eraseA, List.filter, hq] at ih ⊢
        simp [lookupA, hp]
        exact ih h

theorem lookupA_insertA_self {α : Type} (l : List (String × α)) (key : String) (v : α) :
    lookupA (insertA l key v) key = some v := by
  simp [insertA, lookupA]

theorem lookupA_insertA_of_none {α : Type} (l : List (String × α)) (key p : String) (v : α)
    (hp : p ≠ key) (h : lookupA l p = none) : lookupA (insertA l key v) p = none := by
  simp [insertA, lookupA, hp.symm]
  exact lookupA_eraseA_of_none l p key h

/-! ### Concrete states used by witnesses and counterexamples -/

/-- Freshly constructed `LeaserCheckpointer` state: empty store, empty
Lease Cache, empty dirty set, processor identity "A". -/
def emptyState : LCState :=
  { store := [], leases := [], dirtyPartitions := [], processorName := "A" }

/-- Sample owned lease for partition "0". -/
def sampleLease : StorageLease :=
  { PartitionID := "0"
    Owner := "A"
    Epoch := 1
    Checkpoint := some NewCheckpointFromStartOfStream
    State := LeaseStateType.leased
    Token := "t1" }

/-- State in which this process owns partition "0". -/
def ownedState : LCState :=
  { store := [("0", sampleLease)]
    leases := [("0", sampleLease)]
    dirtyPartitions := []
    processorName := "A" }

/-- Sample checkpoint recording progress. -/
def sampleCheckpoint : Checkpoint :=
  { Offset := "100", SequenceNumber := 5, EnqueueTime := 10 }

/-! ### Claim theorems -/

/-- C10: in the internal `updateLease`, the second error branch returning
"could not renew lease when updating lease" is unreachable — it re-tests
the same cache-lookup success flag that already caused an early return
when false, and the flag is not reassigned in between.  Hence
`updateLease` agrees with the variant from which that branch is removed
on every input. -/
theorem updateLease_second_branch_unreachable (env : UpdateEnv) (s : LCState)
    (partitionID : String) :
    updateLease env s partitionID = updateLeaseSecondCheckRemoved env s partitionID := by
  cases h : lookupA s.leases partitionID with
  | none => simp [updateLease, updateLeaseSecondCheckRemoved, h]
  | some lease =>
    cases hr : env.renewLock lease.Token with
    | error e => simp [updateLease, updateLeaseSecondCheckRemoved, h, hr]
    | ok u => simp [updateLease, updateLeaseSecondCheckRemoved, h, hr]

/-- C6: for a partition not in the Lease Cache, `RenewLease` fails with
"lease was not found"; moreover `RenewLease` never mutates the state (in
particular neither the Lease Cache nor the dirty set) on any path. -/
theorem renewLease_not_found_and_pure (renewLock : Except String Unit) (s : LCState)
    (partitionID : String) :
    (lookupA s.leases partitionID = none →
      RenewLease renewLock s partitionID = ((none, false, some "lease was not found"), s)) ∧
    (RenewLease renewLock s partitionID).2 = s := by
  constructor
  · intro h
    simp [RenewLease, h]
  · cases h : lookupA s.leases partitionID with
    | none => simp [RenewLease, h]
    | some lease =>
      cases hr : renewLock with
      | error e => simp [RenewLease, h, hr]
      | ok u => simp [RenewLease, h, hr]

/-- Witness for C6 at a concrete input: the empty Lease Cache. -/
theorem renewLease_not_found_and_pure_witness :
    (lookupA emptyState.leases "0" = none →
      RenewLease (Except.ok ()) emptyState "0" =
        ((none, false, some "lease was not found"), emptyState)) ∧
    (RenewLease (Except.ok ()) emptyState "0").2 = emptyState :=
  renewLease_not_found_and_pure (Except.ok ()) emptyState "0"

/-- C4: for an owned partition, `UpdateCheckpoint` succeeds, replaces only
the cached in-memory checkpoint, marks the partition dirty with the fresh
marker, performs no durable-store write, and an immediately following
`GetCheckpoint` returns the new checkpoint. -/
theorem updateCheckpoint_then_getCheckpoint (marker : String) (s : LCState)
    (partitionID : String) (cp : Checkpoint) (lease : StorageLease)
    (h : lookupA s.leases partitionID = some lease) :
    (UpdateCheckpoint (Except.ok marker) s partitionID cp).1 = none ∧
    (UpdateCheckpoint (Except.ok marker) s partitionID cp).2.leases =
      insertA s.leases partitionID { lease with Checkpoint := some cp } ∧
    lookupA (UpdateCheckpoint (Except.ok marker) s partitionID cp).2.dirtyPartitions
      partitionID = some marker ∧
    (UpdateCheckpoint (Except.ok marker) s partitionID cp).2.store = s.store ∧
    GetCheckpoint (UpdateCheckpoint (Except.ok marker) s partitionID cp).2 partitionID =
      some (cp, true) := by
  refine ⟨?_, ?_, ?_, ?_, ?_⟩ <;>
    simp [UpdateCheckpoint, h, GetCheckpoint, lookupA_insertA_self]

/-- Witness for C4 at a concrete input: partition "0" owned with
`sampleLease`, updated to `sampleCheckpoint`. -/
theorem updateCheckpoint_then_getCheckpoint_witness :
    (UpdateCheckpoint (Except.ok "u1") ownedState "0" sampleCheckpoint).1 = none ∧
    (UpdateCheckpoint (Except.ok "u1") ownedState "0" sampleCheckpoint).2.leases =
      insertA ownedState.leases "0" { sampleLease with Checkpoint := some sampleCheckpoint } ∧
    lookupA (UpdateCheckpoint (Except.ok "u1") ownedState "0" sampleCheckpoint).2.dirtyPartitions
      "0" = some "u1" ∧
    (UpdateCheckpoint (Except.ok "u1") ownedState "0" sampleCheckpoint).2.store =
      ownedState.store ∧
    GetCheckpoint (UpdateCheckpoint (Except.ok "u1") ownedState "0" sampleCheckpoint).2 "0" =
      some (sampleCheckpoint, true) :=
  updateCheckpoint_then_getCheckpoint "u1" ownedState "0" sampleCheckpoint sampleLease rfl

/-- C5: a successful `ReleaseLease` evicts the partition from both the
Lease Cache and the dirty set, and a subsequent `GetCheckpoint` returns
the start-of-stream default (with `ok = false`) rather than the last held
checkpoint. -/
theorem releaseLease_then_getCheckpoint (s : LCState) (partitionID : String)
    (lease : StorageLease) (h : lookupA s.leases partitionID = some lease) :
    ReleaseLease (Except.ok ()) s partitionID =
      ((true, none),
       { s with
          leases := eraseA s.leases partitionID
          dirtyPartitions := eraseA s.dirtyPartitions partitionID }) ∧
    GetCheckpoint (ReleaseLease (Except.ok ()) s partitionID).2 partitionID =
      some (NewCheckpointFromStartOfStream, false) := by
  constructor
  · simp [ReleaseLease, h]
  · simp [ReleaseLease, h, GetCheckpoint, lookupA_eraseA_self]

/-- Witness for C5 at a concrete input: releasing owned partition "0". -/
theorem releaseLease_then_getCheckpoint_witness :
    ReleaseLease (Except.ok ()) ownedState "0" =
      ((true, none),
       { ownedState with
          leases := eraseA ownedState.leases "0"
          dirtyPartitions := eraseA ownedState.dirtyPartitions "0" }) ∧
    GetCheckpoint (ReleaseLease (Except.ok ()) ownedState "0").2 "0" =
      some (NewCheckpointFromStartOfStream, false) :=
  releaseLease_then_getCheckpoint ownedState "0" sampleLease rfl

/-- C2: `createOrGetLease` does not fall back to get-and-return when the
lease object already exists.  The conditional create's "already exists"
rejection surfaces as a non-nil error, which the function returns
directly; the get-and-return fallback is guarded by response status 404,
which a successful create never produces.  Concretely: the first
`EnsureLease "0"` on an empty store succeeds, and the second call on the
resulting store returns the store's "BlobAlreadyExists" error instead of
the existing lease. -/
theorem ensureLease_second_call_errors :
    (EnsureLease emptyState "0").1 = Except.ok (newEnsuredLease "0") ∧
    (EnsureLease (EnsureLease emptyState "0").2 "0").1 =
      Except.error "BlobAlreadyExists" := by
  constructor <;> rfl

/-- Acquisition environment for the C9 scenario: every store call
succeeds, the initial read returns the lease object exactly as
`createOrGetLease` created it (no checkpoint stored), the blob is
unlocked, and the fresh token is "token-1". -/
def c9Env : AcquireEnv :=
  { getLease := Except.ok (newEnsuredLease "0")
    getProperties := Except.ok LeaseStateType.available
    newUUID := Except.ok "token-1"
    changeLease := fun _ _ => Except.ok ()
    acquireBlobLease := fun _ => Except.ok ()
    putBlob := fun _ => Except.ok () }

/-- State reached by `EnsureLease "0"` followed by a successful
`AcquireLease "0"`, with neither `EnsureCheckpoint` nor
`UpdateCheckpoint` called: the cached lease's checkpoint pointer is
nil. -/
def c9State : LCState :=
  (AcquireLease c9Env (EnsureLease emptyState "0").2 "0").2

/-- C9: whenever a partition is present in the Lease Cache,
`GetCheckpoint` unconditionally dereferences the cached lease's
checkpoint pointer — the result is exactly the mapped checkpoint pointer,
so it is a value only when the pointer is non-nil (a nil pointer is the
panic, modelled `none`).  Moreover the hazard is reachable: a lease
object created by `EnsureLease` carries no checkpoint, and after
acquiring it (with no `EnsureCheckpoint`/`UpdateCheckpoint` call) the
partition is cached yet `GetCheckpoint` dereferences a nil pointer. -/
theorem getCheckpoint_nil_dereference :
    (∀ (s : LCState) (partitionID : String) (lease : StorageLease),
        lookupA s.leases partitionID = some lease →
        GetCheckpoint s partitionID = lease.Checkpoint.map (fun cp => (cp, true))) ∧
    (newEnsuredLease "0").Checkpoint = none ∧
    (lookupA c9State.leases "0").isSome = true ∧
    GetCheckpoint c9State "0" = none := by
  refine ⟨?_, rfl, rfl, rfl⟩
  intro s partitionID lease h
  cases hc : lease.Checkpoint <;> simp [GetCheckpoint, h, hc]

/-- Witness for C9 at a concrete input: a cached lease whose checkpoint
pointer is non-nil dereferences to that checkpoint. -/
theorem getCheckpoint_nil_dereference_witness :
    GetCheckpoint ownedState "0" = sampleLease.Checkpoint.map (fun cp => (cp, true)) :=
  getCheckpoint_nil_dereference.1 ownedState "0" sampleLease rfl

/-- C3: every successful `AcquireLease` returns a lease whose token is
the freshly generated token, whose owner is this process's identity, and
whose epoch is the epoch read from the store plus one (hence strictly
greater); the lease was uploaded conditioned on the new token (the upload
succeeded and the durable store holds the lease), and the lease is in the
Lease Cache; the dirty set is untouched. -/
theorem acquireLease_success_spec (env : AcquireEnv) (s : LCState) (partitionID : String)
    (lease : StorageLease) (s' : LCState)
    (h : AcquireLease env s partitionID = ((some lease, true, none), s')) :
    ∃ prev newToken,
      env.getLease = Except.ok prev ∧
      env.newUUID = Except.ok newToken ∧
      lease.Token = newToken ∧
      lease.Owner = s.processorName ∧
      lease.Epoch = prev.Epoch + 1 ∧
      prev.Epoch < lease.Epoch ∧
      env.putBlob newToken = Except.ok () ∧
      lookupA s'.leases partitionID = some lease ∧
      lookupA s'.store partitionID = some lease ∧
      s'.dirtyPartitions = s.dirtyPartitions := by
  cases hg : env.getLease with
  | error e => simp [AcquireLease, hg] at h
  | ok prev =>
    cases hp : env.getProperties with
    | error e => simp [AcquireLease, hg, hp] at h
    | ok st =>
      cases hu : env.newUUID with
      | error e => simp [AcquireLease, hg, hp, hu] at h
      | ok newToken =>
        by_cases hst : st = LeaseStateType.leased
        · cases hc : env.changeLease prev.Token newToken with
          | error e => simp [AcquireLease, hg, hp, hu, hst, hc] at h
          | ok u =>
            cases hb : env.putBlob newToken with
            | error e => simp [AcquireLease, hg, hp, hu, hst, hc, hb] at h
            | ok u2 =>
              simp [AcquireLease, hg, hp, hu, hst, hc, hb] at h
              obtain ⟨h1, h2⟩ := h
              subst h1
              subst h2
              exact ⟨prev, newToken, rfl, rfl, rfl, rfl, rfl, lt_add_one _, hb,
                lookupA_insertA_self _ _ _, lookupA_insertA_self _ _ _, rfl⟩
        · cases hc : env.acquireBlobLease newToken with
          | error e => simp [AcquireLease, hg, hp, hu, hst, hc] at h
          | ok u =>
            cases hb : env.putBlob newToken with
            | error e => simp [AcquireLease, hg, hp, hu, hst, hc, hb] at h
            | ok u2 =>
              simp [AcquireLease, hg, hp, hu, hst, hc, hb] at h
              obtain ⟨h1, h2⟩ := h
              subst h1
              subst h2
              exact ⟨prev, newToken, rfl, rfl, rfl, rfl, rfl, lt_add_one _, hb,
                lookupA_insertA_self _ _ _, lookupA_insertA_self _ _ _, rfl⟩

/-- Lease produced by the successful acquisition of partition "0" in the
all-success environment `c9Env` starting from `emptyState`. -/
def c3Lease : StorageLease :=
  { PartitionID := "0"
    Owner := "A"
    Epoch := 1
    Checkpoint := none
    State := LeaseStateType.available
    Token := "token-1" }

/-- Witness for C3 at a concrete input: acquiring partition "0" through
the all-success environment `c9Env`. -/
theorem acquireLease_success_spec_witness :
    ∃ prev newToken,
      c9Env.getLease = Except.ok prev ∧
      c9Env.newUUID = Except.ok newToken ∧
      c3Lease.Token = newToken ∧
      c3Lease.Owner = emptyState.processorName ∧
      c3Lease.Epoch = prev.Epoch + 1 ∧
      prev.Epoch < c3Lease.Epoch ∧
      c9Env.putBlob newToken = Except.ok () ∧
      lookupA (AcquireLease c9Env emptyState "0").2.leases "0" = some c3Lease ∧
      lookupA (AcquireLease c9Env emptyState "0").2.store "0" = some c3Lease ∧
      (AcquireLease c9Env emptyState "0").2.dirtyPartitions =
        emptyState.dirtyPartitions :=
  acquireLease_success_spec c9Env emptyState "0" c3Lease
    (AcquireLease c9Env emptyState "0").2 (by decide)

/-- C8: `AcquireLease`'s initial lease read is the only swallowed error —
its failure yields (not acquired, nil error) — while a failure of the
lock-state read, the token generation, the lock steal, the fresh lock
acquisition, or the conditional upload is surfaced as (not acquired, that
error). -/
theorem acquireLease_error_paths (env : AcquireEnv) (s : LCState) (partitionID : String) :
    (∀ e, env.getLease = Except.error e →
        AcquireLease env s partitionID = ((none, false, none), s)) ∧
    (∀ prev e, env.getLease = Except.ok prev → env.getProperties = Except.error e →
        AcquireLease env s partitionID = ((none, false, some e), s)) ∧
    (∀ prev st e, env.getLease = Except.ok prev → env.getProperties = Except.ok st →
        env.newUUID = Except.error e →
        AcquireLease env s partitionID = ((none, false, some e), s)) ∧
    (∀ prev newToken e, env.getLease = Except.ok prev →
        env.getProperties = Except.ok LeaseStateType.leased →
        env.newUUID = Except.ok newToken →
        env.changeLease prev.Token newToken = Except.error e →
        AcquireLease env s partitionID = ((none, false, some e), s)) ∧
    (∀ prev st newToken e, env.getLease = Except.ok prev →
        env.getProperties = Except.ok st → st ≠ LeaseStateType.leased →
        env.newUUID = Except.ok newToken →
        env.acquireBlobLease newToken = Except.error e →
        AcquireLease env s partitionID = ((none, false, some e), s)) ∧
    (∀ prev st newToken lockRes e, env.getLease = Except.ok prev →
        env.getProperties = Except.ok st →
        env.newUUID = Except.ok newToken →
        (if st = LeaseStateType.leased then env.changeLease prev.Token newToken
          else env.acquireBlobLease newToken) = Except.ok lockRes →
        env.putBlob newToken = Except.error e →
        AcquireLease env s partitionID = ((none, false, some e), s)) := by
  refine ⟨?_, ?_, ?_, ?_, ?_, ?_⟩
  · intro e hg
    simp [AcquireLease, hg]
  · intro prev e hg hp
    simp [AcquireLease, hg, hp]
  · intro prev st e hg hp hu
    simp [AcquireLease, hg, hp, hu]
  · intro prev newToken e hg hp hu hc
    simp [AcquireLease, hg, hp, hu, hc]
  · intro prev st newToken e hg hp hst hu hc
    simp [AcquireLease, hg, hp, hu, hst, hc]
  · intro prev st newToken lockRes e hg hp hu hl hb
    by_cases hst : st = LeaseStateType.leased
    · rw [if_pos hst] at hl
      simp [AcquireLease, hg, hp, hu, hst, hl, hb]
    · rw [if_neg hst] at hl
      simp [AcquireLease, hg, hp, hu, hst, hl, hb]

/-- Witness for C8 at a concrete input: an environment whose initial
lease read fails. -/
theorem acquireLease_error_paths_witness :
    AcquireLease { c9Env with getLease := Except.error "read failed" } emptyState "0" =
      ((none, false, none), emptyState) :=
  (acquireLease_error_paths { c9Env with getLease := Except.error "read failed" }
    emptyState "0").1 "read failed" rfl

/-- Helper for C7: the receive loop of `GetLeases` aborts with the first
error of the arrival order, which is one of the fetch errors, regardless
of the accumulator. -/
theorem gatherLeases_error :
    ∀ (results : List (Except String StorageLease)) (acc : List StorageLease) (e : String),
    Except.error e ∈ results →
    ∃ e0, gatherLeases results acc = Except.error e0 ∧ Except.error e0 ∈ results := by
  intro results
  induction results with
  | nil =>
    intro acc e h
    cases h
  | cons r rest ih =>
    intro acc e h
    cases r with
    | error e1 => exact ⟨e1, rfl, List.mem_cons_self _ _⟩
    | ok lease =>
      have hmem : Except.error e ∈ rest := by
        rcases List.mem_cons.mp h with h1 | h2
        · exact absurd h1 (by simp)
        · exact h2
      obtain ⟨e0, h1, h2⟩ := ih (lease :: acc) e hmem
      exact ⟨e0, h1, List.mem_cons_of_mem _ h2⟩

/-- C7: `GetLeases` is all-or-nothing under fetch failure — when any
fetch result is an error, the call returns an error (one of the fetch
errors, the first to arrive) and no lease list; in particular when all
failures carry the same error, that error is returned. -/
theorem getLeases_all_or_nothing (results : List (Except String StorageLease)) (e : String)
    (h : Except.error e ∈ results) :
    (∃ e0, GetLeases results = Except.error e0 ∧ Except.error e0 ∈ results) ∧
    ((∀ e1, Except.error e1 ∈ results → e1 = e) →
      GetLeases results = Except.error e) := by
  have hex := gatherLeases_error results [] e h
  refine ⟨hex, fun huniq => ?_⟩
  obtain ⟨e0, h1, h2⟩ := hex
  rw [show GetLeases results = gatherLeases results [] from rfl, h1, huniq e0 h2]

/-- Witness for C7 at a concrete input: a batch with a single failing
fetch. -/
theorem getLeases_all_or_nothing_witness :
    (∃ e0, GetLeases [Except.error "boom"] = Except.error e0 ∧
      Except.error e0 ∈ ([Except.error "boom"] : List (Except String StorageLease))) ∧
    ((∀ e1, Except.error e1 ∈ ([Except.error "boom"] : List (Except String StorageLease)) →
        e1 = "boom") →
      GetLeases [Except.error "boom"] = Except.error "boom") :=
  getLeases_all_or_nothing [Except.error "boom"] "boom" (by simp)

/-- State owning partition "0" with partition "0" dirty, used by the C1
counterexample. -/
def c1DirtyState : LCState :=
  { ownedState with dirtyPartitions := [("0", "u1")] }

/-- Counterexample to C1 as stated: one cycle of the background persister
over a single dirty partition "0" whose flush fails nonetheless removes
"0" from the dirty set (the claim says a failed partition remains dirty
for retry); the cycle reports the failure. -/
theorem persistDirty_failed_partition_removed :
    (persistDirtyPartitions [("0", some "update failed")] c1DirtyState).1 =
      some "update failed" ∧
    lookupA (persistDirtyPartitions [("0", some "update failed")] c1DirtyState).2.dirtyPartitions
      "0" = none := by
  constructor <;> rfl

/-- Helper for C1: the persister's receive loop never re-adds a dirty
entry — a key absent from the dirty set stays absent. -/
theorem persistLoop_none_mono :
    ∀ (results : List (String × Option String)) (i : Nat) (lastErr : Option String)
      (dirty : List (String × String)) (p : String),
    lookupA dirty p = none →
    lookupA (persistLoop i results lastErr dirty).1.2 p = none := by
  intro results
  induction results with
  | nil =>
    intro i lastErr dirty p h
    by_cases hi : i < dirty.length <;> simp [persistLoop, hi] <;> exact h
  | cons r rest ih =>
    intro i lastErr dirty p h
    by_cases hi : i < dirty.length
    · have hstep : persistLoop i (r :: rest) lastErr dirty =
          persistLoop (i + 1) rest
            (match r.2 with
             | some e => some e
             | none => lastErr)
            (eraseA dirty r.1) := by
        rw [persistLoop]
        simp [hi]
      rw [hstep]
      exact ih _ _ _ p (lookupA_eraseA_of_none _ _ _ h)
    · simp [persistLoop, hi]
      exact h

/-- Helper for C1: the receive loop consumes a prefix of the arrival
order; every consumed partition is deleted from the dirty set whether its
flush failed or not, and the loop's reported error is the fold of the
consumed flush results over the incoming `lastErr` (the last failure
wins). -/
theorem persistLoop_spec :
    ∀ (results : List (String × Option String)) (i : Nat) (lastErr : Option String)
      (dirty : List (String × String)),
    ∃ consumed,
      results = consumed ++ (persistLoop i results lastErr dirty).2 ∧
      (∀ p e, (p, e) ∈ consumed →
        lookupA (persistLoop i results lastErr dirty).1.2 p = none) ∧
      (persistLoop i results lastErr dirty).1.1 =
        consumed.foldl
          (fun acc r =>
            match r.2 with
            | some e => some e
            | none => acc) lastErr := by
  intro results
  induction results with
  | nil =>
    intro i lastErr dirty
    refine ⟨[], ?_, ?_, ?_⟩
    · by_cases hi : i < dirty.length <;> simp [persistLoop, hi]
    · intro p e hmem
      cases hmem
    · by_cases hi : i < dirty.length <;> simp [persistLoop, hi]
  | cons r rest ih =>
    intro i lastErr dirty
    by_cases hi : i < dirty.length
    · have hstep : persistLoop i (r :: rest) lastErr dirty =
          persistLoop (i + 1) rest
            (match r.2 with
             | some e => some e
             | none => lastErr)
            (eraseA dirty r.1) := by
        rw [persistLoop]
        simp [hi]
      obtain ⟨consumed, hsplit, hgone, herr⟩ :=
        ih (i + 1)
          (match r.2 with
           | some e => some e
           | none => lastErr)
          (eraseA dirty r.1)
      refine ⟨r :: consumed, ?_, ?_, ?_⟩
      · rw [hstep, List.cons_append]
        exact congrArg _ hsplit
      · intro p e hmem
        rw [hstep]
        rcases List.mem_cons.mp hmem with h1 | h2
        · have hp : p = r.1 := congrArg Prod.fst h1
          rw [hp]
          exact persistLoop_none_mono _ _ _ _ _ (lookupA_eraseA_self _ _)
        · exact hgone p e h2
      · rw [hstep, List.foldl_cons]
        exact herr
    · refine ⟨[], ?_, ?_, ?_⟩
      · simp [persistLoop, hi]
      · intro p e hmem
        cases hmem
      · simp [persistLoop, hi]

/-- C1 amended: in every cycle of the background persister, each
partition whose flush result the cycle receives is removed from the dirty
set whether the durable flush succeeded or failed (a failed partition is
not left dirty for retry); the error reported for the cycle is the last
flush failure among the received results.  The received results are
pinned: they are exactly the prefix of the arrival order preceding the
loop's actual unconsumed suffix `(persistLoop 0 results none
s.dirtyPartitions).2`, so `consumed` is uniquely determined and the
removal conjunct covers every result the cycle receives. -/
theorem persistDirty_amended (results : List (String × Option String)) (s : LCState) :
    ∃ consumed,
      results = consumed ++ (persistLoop 0 results none s.dirtyPartitions).2 ∧
      (∀ p e, (p, e) ∈ consumed →
        lookupA (persistDirtyPartitions results s).2.dirtyPartitions p = none) ∧
      (persistDirtyPartitions results s).1 =
        consumed.foldl
          (fun acc r =>
            match r.2 with
            | some e => some e
            | none => acc) none := by
  obtain ⟨consumed, hsplit, hgone, herr⟩ := persistLoop_spec results 0 none s.dirtyPartitions
  exact ⟨consumed, hsplit, hgone, herr⟩

/-- Witness for C1's amended claim at a concrete input: the failing
single-partition cycle of the counterexample state. -/
theorem persistDirty_amended_witness :
    ∃ consumed,
      ([("0", some "update failed")] : List (String × Option String)) =
        consumed ++
          (persistLoop 0 [("0", some "update failed")] none
            c1DirtyState.dirtyPartitions).2 ∧
      (∀ p e, (p, e) ∈ consumed →
        lookupA (persistDirtyPartitions [("0", some "update failed")]
          c1DirtyState).2.dirtyPartitions p = none) ∧
      (persistDirtyPartitions [("0", some "update failed")] c1DirtyState).1 =
        consumed.foldl
          (fun acc r =>
            match r.2 with
            | some e => some e
            | none => acc) none :=
  persistDirty_amended [("0", some "update failed")] c1DirtyState

end AzureStorageLC
